import Mathlib

/-!
Verification development for the gkit repository: a shallow embedding of the
command registry, argument marshaler, process invoker and the three front-end
adapters (shell dispatcher `gkit.sh`, MCP tool-call handler, Express HTTP
routes), together with theorems settling the specification claims.

Sources embedded:
- `src/core.ts` : `GkitCommands`, `ToolToGkitCommandMap`, `executeGkit`
- `src/server.ts` : the generated `app.post` handlers
- the MCP server file : `CallToolRequestSchema` handler, `reviewCode`
- `gkit.sh` : `main` router, `gk_slack`, the notification tail of `gk_pr`
-/

namespace Gkit

/-- A JSON value as it may appear in a request body or in an MCP tool-call
argument mapping (coarse model: objects/arrays are not needed by any claim). -/
inductive JsonVal where
  | str (s : String)
  | num (n : Int)
  | bool (b : Bool)
  | null
  deriving Repr, DecidableEq

/-- One property of a tool's `inputSchema.properties` object: key, `description`
string and optional `default` value, in the order the source declares them. -/
structure ParamSpec where
  name : String
  description : String := ""
  defaultVal : Option String := none
  deriving Repr, DecidableEq

/-- One entry of `GkitCommands` in `core.ts`: tool name, description, the
ordered `properties` keys of `inputSchema`, and its `required` name list. -/
structure Tool where
  name : String
  description : String := ""
  properties : List ParamSpec
  required : List String
  deriving Repr, DecidableEq

/-- `core.ts` `GkitCommands`: the registry, in source order. -/
def GkitCommands : List Tool :=
  [ { name := "create_pr",
      description := "Create a pull request to a specific base branch",
      properties :=
        [ { name := "base", description := "Base branch name (default: release)",
            defaultVal := some "release" },
          { name := "title",
            description := "PR title (optional, will use --fill if not provided)" } ],
      required := [] },
    { name := "create_pr_to_staging",
      description := "Create a pull request to the latest release branch (staging)",
      properties :=
        [ { name := "remote", description := "Remote name (default: origin)",
            defaultVal := some "origin" },
          { name := "title", description := "PR title" } ],
      required := [] },
    { name := "create_branch",
      description := "Create a new branch from develop (or specified branch)",
      properties :=
        [ { name := "branch", description := "New branch name" },
          { name := "from", description := "Source branch (default: develop)",
            defaultVal := some "develop" },
          { name := "remote", description := "Remote name (default: origin)",
            defaultVal := some "origin" } ],
      required := ["branch"] },
    { name := "create_branch_from_staging",
      description := "Create a new branch from the latest release branch",
      properties :=
        [ { name := "branch", description := "New branch name" },
          { name := "remote", description := "Remote name (default: origin)",
            defaultVal := some "origin" } ],
      required := ["branch"] },
    { name := "create_hotfix_branch",
      description := "Create a new hotfix branch from main (or specified branch)",
      properties :=
        [ { name := "branch", description := "New branch name" },
          { name := "from", description := "Source branch (default: main)",
            defaultVal := some "main" },
          { name := "remote", description := "Remote name (default: origin)",
            defaultVal := some "origin" } ],
      required := ["branch"] },
    { name := "approve_pr",
      description := "Approve a GitHub pull request",
      properties := [ { name := "pr_url", description := "GitHub PR URL" } ],
      required := ["pr_url"] },
    { name := "merge_pr",
      description := "Approve and merge a GitHub pull request",
      properties := [ { name := "pr_url", description := "GitHub PR URL" } ],
      required := ["pr_url"] },
    { name := "trigger_workflow",
      description := "Interactively trigger a GitHub Action workflow for a PR",
      properties := [ { name := "pr_url", description := "GitHub PR URL" } ],
      required := ["pr_url"] },
    { name := "send_slack_message",
      description := "Send a message to a Slack channel",
      properties := [ { name := "message", description := "Message to send" } ],
      required := ["message"] } ]

/-- `core.ts` `ToolToGkitCommandMap`, as an association list in source order. -/
def ToolToGkitCommandMap : List (String × String) :=
  [ ("create_pr", "pr"),
    ("create_pr_to_staging", "prs"),
    ("create_branch", "nb"),
    ("create_branch_from_staging", "nbs"),
    ("create_hotfix_branch", "nbh"),
    ("approve_pr", "ap"),
    ("merge_pr", "mg"),
    ("trigger_workflow", "wf"),
    ("send_slack_message", "sl") ]

/-- `ToolToGkitCommandMap[name]`: property access on the record object. -/
def lookupCmd (n : String) : Option String :=
  (ToolToGkitCommandMap.find? (fun kv => kv.fst = n)).map (fun kv => kv.snd)

/-- `Object.keys(tool.inputSchema.properties || \x7b\x7d)`: the declared
parameter names in declaration order. -/
def paramOrder (tool : Tool) : List String :=
  tool.properties.map (fun p => p.name)

/-- The shared marshaling step of both the HTTP adapter (`server.ts`:
`paramOrder.forEach(param => \x7b if (req.body[param] !== undefined)
args.push(req.body[param]) \x7d)`) and the MCP handler: walk the declared
parameter names in order, keep the defined values, skip absent ones. -/
def marshal {α : Type} (params : List String) (values : String → Option α) : List α :=
  params.filterMap values

/-! ### The process invoker (`core.ts` `executeGkit`) -/

/-- The whitespace class removed by JavaScript `String.prototype.trim`
(ASCII whitespace, NEL is not included; NBSP and BOM are). -/
def jsWhitespace (c : Char) : Bool :=
  c = ' ' || c = '\t' || c = '\n' || c = '\r' || c = '\x0b' || c = '\x0c' ||
  c = '\u00A0' || c = '\uFEFF'

/-- JavaScript `s.trim()`: strip `jsWhitespace` from both ends. -/
def jsTrim (s : String) : String :=
  String.mk (((s.data.dropWhile jsWhitespace).reverse.dropWhile jsWhitespace).reverse)

/-- What the `close` event of the spawned child reports: the exit code
(`number | null`) and the buffered stdout/stderr streams. -/
structure ChildResult where
  exitCode : Option Int
  stdout : String
  stderr : String
  deriving Repr, DecidableEq

/-- The value `executeGkit` resolves with: `\x7b success: boolean; output:
string; error?: string \x7d` (the implementation always sets `error`). -/
structure InvocationResult where
  success : Bool
  output : String
  error : String
  deriving Repr, DecidableEq

/-- `core.ts` `executeGkit`, `close` handler: `resolve(\x7b success: code === 0,
output: stdout.trim(), error: stderr.trim() \x7d)`. -/
def executeGkitResult (child : ChildResult) : InvocationResult :=
  { success := child.exitCode == some 0,
    output := jsTrim child.stdout,
    error := jsTrim child.stderr }

/-! ### The HTTP adapter (`server.ts` generated `app.post` handlers) -/

/-- The JSON body of an HTTP response: either the literal
`\x7b success: false, error: msg \x7d` of the 400 branch, or
`res.json(result)` on the 200 path. -/
inductive HttpBody where
  | errBody (success : Bool) (error : String)
  | resultBody (r : InvocationResult)
  deriving Repr, DecidableEq

/-- An HTTP response: status code and JSON body. -/
structure HttpResp where
  status : Nat
  body : HttpBody
  deriving Repr, DecidableEq

/-- Outcome of one `app.post` handler run: the response sent and the list of
subprocess invocations (command, argv) performed. -/
structure HttpStep where
  resp : HttpResp
  spawned : List (String × List JsonVal)
  deriving Repr, DecidableEq

/-- One generated `app.post` handler of `server.ts`, for the route of `tool`
(whose mapped gkit sub-command is `command`). `invoker` stands for
`executeGkit`'s run of the child process; `body` is `req.body` (a parsed JSON
object, so values are arbitrary JSON). The source first loops over
`inputSchema.required` returning `res.status(400)` at the first parameter with
`req.body[param] === undefined`, then pushes the defined values of
`Object.keys(properties)` in order and calls `executeGkit`, answering
`res.json(result)` (status 200). -/
def httpHandler (tool : Tool) (command : String)
    (invoker : String → List JsonVal → InvocationResult)
    (body : String → Option JsonVal) : HttpStep :=
  match tool.required.find? (fun p => (body p).isNone) with
  | some p =>
      { resp := { status := 400,
                  body := .errBody false ("Parameter \x27" ++ p ++ "\x27 is required") },
        spawned := [] }
  | none =>
      let args := marshal (paramOrder tool) body
      { resp := { status := 200, body := .resultBody (invoker command args) },
        spawned := [(command, args)] }

/-- `tool.name.replace(/_/g, '-')`. -/
def hyphenate (s : String) : String :=
  String.mk (s.data.map (fun c => if c = '_' then '-' else c))

/-- The POST routes `server.ts` registers: one `/api/<hyphenated name>` per
registry entry that has a `ToolToGkitCommandMap` mapping (entries without a
mapping are skipped with a warning). -/
def registeredEndpoints : List String :=
  GkitCommands.filterMap (fun t =>
    match lookupCmd t.name with
    | some _ => some ("/api/" ++ hyphenate t.name)
    | none => none)

/-! ### The MCP tool-call handler (`CallToolRequestSchema` handler) -/

/-- `args[param]` for an MCP argument object modelled as an association list
(first binding wins, as in a JS object literal read). -/
def jlookup (assoc : List (String × JsonVal)) (k : String) : Option JsonVal :=
  (assoc.find? (fun kv => kv.fst = k)).map (fun kv => kv.snd)

/-- The gkit branch's argv construction:
`paramOrder.map(param => (args as any)[param]).filter(v => v !== undefined)`. -/
def mcpGkitArgs (tool : Tool) (args : List (String × JsonVal)) : List JsonVal :=
  ((paramOrder tool).map (jlookup args)).reduceOption

/-- Which branch of the `CallToolRequestSchema` handler a request reaches, and
what it hands to `executeGkit`. `invalid` is the early
`!args || typeof args !== 'object'` return; `advanced` covers the
`rv_pr`/`review_code`/`commit` switch cases; `unknown` is the default case's
`throw new Error` (caught by the handler's own `catch`). -/
inductive McpStep where
  | invalid
  | invokeGkit (cmd : String) (argv : List JsonVal)
  | advanced (name : String)
  | unknown (name : String)
  deriving Repr, DecidableEq

/-- The routing of the `CallToolRequestSchema` handler: missing argument
object → `invalid`; a `ToolToGkitCommandMap`-mapped name → marshal and invoke;
otherwise the advanced-tool switch, whose default throws `Unknown tool`.
The source reads the tool via `GkitCommands.find(t => t.name === name)!`; the
non-null assertion is sound because every mapped name is a registry entry
(theorem `mapped_tools_in_registry` below), and the unreachable `none` branch
here mirrors a hypothetical empty schema. -/
def mcpStep (name : String) (args : Option (List (String × JsonVal))) : McpStep :=
  match args with
  | none => .invalid
  | some a =>
      match lookupCmd name with
      | some cmd =>
          match GkitCommands.find? (fun t => t.name = name) with
          | some tool => .invokeGkit cmd (mcpGkitArgs tool a)
          | none => .invokeGkit cmd []
      | none =>
          if name = "rv_pr" || name = "review_code" || name = "commit" then
            .advanced name
          else
            .unknown name

/-- An MCP tool response: the single text content block and the `isError`
flag (absent means false). -/
structure McpResponse where
  text : String
  isError : Bool
  deriving Repr, DecidableEq

/-- How the gkit branch turns an `executeGkit` result into a response:
`if (!result.success) throw new Error(result.error || result.output)` —
caught by the handler's `catch`, which answers
`\x7b text: "Error: " + message, isError: true \x7d` — else
`\x7b content: [\x7b text: result.output \x7d] \x7d`. JavaScript `||`
treats the empty string as falsy, hence the fallback to `output`. -/
def mcpRespond (r : InvocationResult) : McpResponse :=
  if r.success then
    { text := r.output, isError := false }
  else
    { text := "Error: " ++ (if r.error = "" then r.output else r.error),
      isError := true }

/-- The full handler, with the child-process run abstracted as `invoker` and
the advanced tools (which perform network and git side effects) abstracted as
`adv`. -/
def mcpResponse (invoker : String → List JsonVal → InvocationResult)
    (adv : String → McpResponse) (name : String)
    (args : Option (List (String × JsonVal))) : McpResponse :=
  match mcpStep name args with
  | .invalid => { text := "Error: Invalid arguments provided", isError := true }
  | .invokeGkit cmd argv => mcpRespond (invoker cmd argv)
  | .advanced n => adv n
  | .unknown n => { text := "Error: Unknown tool: " ++ n, isError := true }

/-! ### The shell dispatcher (`gkit.sh` `main`) -/

/-- What `main` in `gkit.sh` does once `check_deps` has passed: show help and
`exit 0` when `$1` is empty, dispatch to an in-process `gk_*` function on a
table match, fall through after help for `help|-h|--help`, or print the
unknown-command error plus help and `exit 1`. -/
inductive ShellDispatch where
  | helpExit
  | runFn (fn : String) (args : List String)
  | helpCmd
  | unknownCmd (c : String)
  deriving Repr, DecidableEq

/-- The exit status of `main` where it is decided by the router itself
(`none` when control passes to a `gk_*` function). `helpCmd` falls off the
`case` and `main` returns the status of `gk_help`, i.e. 0. -/
def shellExitCode : ShellDispatch → Option Nat
  | .helpExit => some 0
  | .runFn _ _ => none
  | .helpCmd => some 0
  | .unknownCmd _ => some 1

/-- `gkit.sh` `main`: the `[ -z "$1" ]` guard and the `case "$COMMAND"`
table, patterns in source order. -/
def shellMain (args : List String) : ShellDispatch :=
  match args with
  | [] => .helpExit
  | cmd :: rest =>
      if cmd = "" then .helpExit
      else if cmd = "prs" then .runFn "gk_prs" rest
      else if cmd = "pr" then .runFn "gk_pr" rest
      else if cmd = "sl" || cmd = "slack" then .runFn "gk_slack" rest
      else if cmd = "nb" then .runFn "gk_nb" rest
      else if cmd = "nbs" then .runFn "gk_nbs" rest
      else if cmd = "nbh" then .runFn "gk_nbh" rest
      else if cmd = "ap" || cmd = "approve" then .runFn "gk_approve" rest
      else if cmd = "mg" || cmd = "merge" then .runFn "gk_merge" rest
      else if cmd = "wf" then .runFn "gk_wf" rest
      else if cmd = "help" || cmd = "-h" || cmd = "--help" then .helpCmd
      else .unknownCmd cmd

/-- The sub-command tokens the `case` table matches. -/
def knownTokens : List String :=
  ["prs", "pr", "sl", "slack", "nb", "nbs", "nbh", "ap", "approve",
   "mg", "merge", "wf", "help", "-h", "--help"]

/-! ### `gk_slack` and the notification tail of `gk_pr` (`gkit.sh`) -/

/-- What the script extracts from the Slack API response: the values
`jq -r '.ok'` and `jq -r '.error'` print for the returned JSON. -/
structure SlackApiReply where
  okField : String
  errField : String
  deriving Repr, DecidableEq

/-- `"$*"`: the positional parameters joined by single spaces. -/
def bashJoin : List String → String
  | [] => ""
  | x :: xs => xs.foldl (fun acc y => acc ++ " " ++ y) x

/-- `gkit.sh` `gk_slack`, as a function of the environment (`SLACK_TOKEN`,
`PR_ROOM`), the positional arguments, and the Slack API reply: the lines it
echoes (all to stdout in this version) and its return status. The not-ok
branch ends in an `echo`, so the function still returns 0 there; only the
missing-token and missing-argument guards `return 1`. -/
def gk_slack (slackToken prRoom : String) (args : List String)
    (reply : SlackApiReply) : List String × Nat :=
  if slackToken = "" then
    (["❌ SLACK_TOKEN not set. export SLACK_TOKEN=\x27xoxb-xxxx\x27"], 1)
  else if args.length < 1 then
    (["Usage: gk_slack <message>"], 1)
  else
    let message := bashJoin args
    let pre := ["Sending message to " ++ prRoom ++ ": " ++ message]
    if reply.okField = "true" then
      (pre ++ ["✅ Sent to " ++ prRoom ++ ": " ++ message], 0)
    else
      (pre ++ ["❌ Error: " ++ reply.errField], 0)

/-- `grep -o '[0-9]\+$'`: the trailing run of digits of the PR URL
(empty when the URL does not end in a digit). -/
def digitSuffix (s : String) : String :=
  String.mk ((s.data.reverse.takeWhile Char.isDigit).reverse)

/-- `$\x7bselected_user#*:\x7d`: drop the shortest leading `*:` match, i.e.
everything up to and including the first colon (unchanged when there is no
colon, as in bash). -/
def afterColon (s : String) : String :=
  match s.data.dropWhile (fun c => c ≠ ':') with
  | ':' :: rest => String.mk rest
  | _ => s

/-- The inputs of `gk_pr`'s notification tail that come from git/fzf:
current branch, `git config user.name`, repository directory name, and the
line `fzf` returned for the mention choice (empty when cancelled). -/
structure PrNotifyCtx where
  currentBranch : String
  author : String
  repoName : String
  selectedUser : String
  deriving Repr, DecidableEq

/-- The message `gk_pr` hands to `gk_slack` (the `\n` sequences are literal
backslash-n in the bash double-quoted string). -/
def gk_pr_message (prUrl base : String) (ctx : PrNotifyCtx) : String :=
  let prNumber := digitSuffix prUrl
  let head := "🚀 Pull request <" ++ prUrl ++ "|" ++ prNumber ++
    "> created by *" ++ ctx.author ++ "* in `" ++ ctx.repoName ++
    "` \\n> Branch: `" ++ ctx.currentBranch ++ "` to: `" ++ base ++ "`"
  let tail := " \\n\\n💬 Please react after you approved or merged this PR"
  if ctx.selectedUser ≠ "" && ctx.selectedUser ≠ "NONE:" then
    head ++ " <@" ++ afterColon ctx.selectedUser ++ ">" ++ tail
  else
    head ++ tail

/-- The tail of `gkit.sh` `gk_pr` from the point `pr_url` has been captured
from `gh pr create`: empty URL reports failure and returns 1; otherwise the
created-message is echoed and `gk_slack` is called. The script runs under
`set -e` and the `gk_slack` call is the last command of the branch, so a
nonzero `gk_slack` status aborts the script and becomes the exit status of
`gkit.sh pr ...`, while status 0 lets `gk_pr` return 0. -/
def gk_pr_notify (slackToken prRoom base prUrl : String) (ctx : PrNotifyCtx)
    (reply : SlackApiReply) : List String × Nat :=
  if prUrl = "" then
    (["❌ Failed to create pull request."], 1)
  else
    let r := gk_slack slackToken prRoom [gk_pr_message prUrl base ctx] reply
    (("✅ Pull request created: " ++ prUrl ++ " 🎉") :: r.fst, r.snd)

/-! ### `reviewCode` (MCP server file) -/

/-- `hay.includes(needle)` on character lists. -/
def listContains (needle : List Char) : List Char → Bool
  | [] => needle.isEmpty
  | c :: rest => needle.isPrefixOf (c :: rest) || listContains needle rest

/-- JavaScript `s.includes(pat)`. -/
def includes (s pat : String) : Bool :=
  listContains pat.data s.data

/-- `s.toLowerCase()` (the ASCII lowering is all the checks below need). -/
def jsToLower (s : String) : String :=
  String.mk (s.data.map Char.toLower)

/-- A JS regex word character `[A-Za-z0-9_]`, as used by `\b`. -/
def jsWordChar (c : Char) : Bool :=
  c.isAlphanum || c = '_'

/-- Does `\bany\b` match at the head of `l`, with `prev` the character just
before it (none at the string start)? -/
def wordAnyAt (prev : Option Char) (l : List Char) : Bool :=
  match l with
  | 'a' :: 'n' :: 'y' :: rest =>
      (match prev with | none => true | some p => !jsWordChar p) &&
      (match rest with | [] => true | c :: _ => !jsWordChar c)
  | _ => false

/-- Scan for a `\bany\b` match anywhere. -/
def wordAnySearch (prev : Option Char) : List Char → Bool
  | [] => false
  | c :: rest => wordAnyAt prev (c :: rest) || wordAnySearch (some c) rest

/-- `diff.match(/\bany\b/) !== null`. -/
def hasWordAny (s : String) : Bool :=
  wordAnySearch none s.data

/-- The JS regex `\s` class. -/
def jsRegexWs (c : Char) : Bool :=
  jsWhitespace c || c = '\u2028' || c = '\u2029' || c = '\u1680' ||
  ('\u2000' ≤ c && c ≤ '\u200A') || c = '\u202F' || c = '\u205F' || c = '\u3000'

/-- A JS regex line terminator, which `.` does not match. -/
def jsLineTerm (c : Char) : Bool :=
  c = '\n' || c = '\r' || c = '\u2028' || c = '\u2029'

/-- Matches `\s*\x7b\s*\x7d` at the head of `l` (the part of the empty-catch
regex after the closing parenthesis). -/
def braceTail (l : List Char) : Bool :=
  match l.dropWhile jsRegexWs with
  | '\x7b' :: rest =>
      match rest.dropWhile jsRegexWs with
      | '\x7d' :: _ => true
      | _ => false
  | _ => false

/-- Matches `.*\)\s*\x7b\s*\x7d` at the head of `l`: some run of
non-line-terminator characters, then `)` and `braceTail`. -/
def dotStarClose : List Char → Bool
  | [] => false
  | c :: rest => (c = ')' && braceTail rest) || (!jsLineTerm c && dotStarClose rest)

/-- Does `catch\s*\(.*\)\s*\x7b\s*\x7d` match at the head of `l`? -/
def catchAt (l : List Char) : Bool :=
  match l with
  | 'c' :: 'a' :: 't' :: 'c' :: 'h' :: rest =>
      match rest.dropWhile jsRegexWs with
      | '(' :: rest2 => dotStarClose rest2
      | _ => false
  | _ => false

/-- Scan for an empty-catch match anywhere. -/
def emptyCatchSearch : List Char → Bool
  | [] => false
  | c :: rest => catchAt (c :: rest) || emptyCatchSearch rest

/-- `diff.match(/catch\s*\(.*\)\s*\x7b\s*\x7d/) !== null`. -/
def hasEmptyCatch (s : String) : Bool :=
  emptyCatchSearch s.data

/-- The value `reviewCode` resolves with. -/
structure ReviewResult where
  summary : String
  issues : List String
  rating : Int
  deriving Repr, DecidableEq

/-- `reviewCode` of the MCP server file: five fixed textual checks over the
diff, a summary chosen by `issues.length` truthiness, and
`rating = Math.max(1, 10 - Math.min(issues.length, 9))`. -/
def reviewCode (diff : String) : ReviewResult :=
  let lower := jsToLower diff
  let issues :=
    (if includes diff "console.log" then
      ["Remove console.log in production code."] else []) ++
    (if includes lower "todo" || includes lower "fixme" then
      ["Resolve TODO/FIXME before merging."] else []) ++
    (if includes lower "password" || includes lower "secret" then
      ["Ensure secrets are not hard-coded."] else []) ++
    (if hasWordAny diff then
      ["Avoid TypeScript any; prefer explicit types."] else []) ++
    (if hasEmptyCatch diff then
      ["Avoid empty catch blocks; handle errors meaningfully."] else [])
  let summary :=
    if issues.length ≠ 0 then "Basic static review found potential improvements."
    else "No obvious issues detected by basic static review."
  let rating : Int := max 1 (10 - min (issues.length : Int) 9)
  { summary := summary, issues := issues, rating := rating }

/-! ### Concrete fixtures used by witnesses and counterexamples -/

/-- The `approve_pr` registry entry. -/
def approvePrTool : Tool := GkitCommands.get ⟨5, by decide⟩

/-- The `create_branch` registry entry. -/
def createBranchTool : Tool := GkitCommands.get ⟨2, by decide⟩

/-- A stand-in invoker whose child always succeeds silently. -/
def dummyInvoker : String → List JsonVal → InvocationResult :=
  fun _ _ => { success := true, output := "", error := "" }

/-- A stand-in for the advanced-tool branch of the MCP handler. -/
def dummyAdv : String → McpResponse :=
  fun _ => { text := "", isError := false }

/-- A request body supplying only `pr_url`. -/
def prUrlBody : String → Option JsonVal :=
  fun n => if n = "pr_url" then some (.str "u") else none

/-- A child process that exits 1 with stderr `not a git repository`. -/
def gitFailChild : ChildResult :=
  { exitCode := some 1, stdout := "", stderr := "not a git repository" }

/-- A value set for `create_branch` supplying every declared parameter. -/
def cbFull : String → Option String :=
  fun n =>
    if n = "branch" then some "feature-x"
    else if n = "from" then some "develop"
    else if n = "remote" then some "origin"
    else none

/-- A value set for `create_branch` omitting the optional `from` while
supplying the later `remote`. -/
def cbSkip : String → Option String :=
  fun n =>
    if n = "branch" then some "feature-x"
    else if n = "remote" then some "origin"
    else none

/-- A concrete notification context for the `gk_pr` model. -/
def prCtx : PrNotifyCtx :=
  { currentBranch := "feat", author := "alice", repoName := "repo",
    selectedUser := "NONE:" }

/-- A Slack API reply whose `ok` field is not `true`. -/
def notOkReply : SlackApiReply :=
  { okField := "false", errField := "invalid_auth" }

end Gkit

namespace Gkit

/-! ## Supporting lemmas -/

/-- `filterMap` keeps the length when every element maps to `some`. -/
theorem filterMap_length_of_isSome {α β : Type} (f : α → Option β)
    (l : List α) (h : ∀ a ∈ l, (f a).isSome) :
    (l.filterMap f).length = l.length := by
  induction l with
  | nil => rfl
  | cons a t ih =>
    obtain ⟨v, hv⟩ := Option.isSome_iff_exists.mp (h a (List.mem_cons_self a t))
    simp [List.filterMap_cons, hv, ih (fun x hx => h x (List.mem_cons_of_mem a hx))]

/-- When every element maps to `some`, `filterMap` is position-preserving. -/
theorem filterMap_getElem?_of_isSome {α β : Type} (f : α → Option β) :
    ∀ (l : List α), (∀ a ∈ l, (f a).isSome) →
      ∀ (i : Nat) (hi : i < l.length), (l.filterMap f)[i]? = f (l.get ⟨i, hi⟩) := by
  intro l
  induction l with
  | nil => intro _ i hi; exact absurd hi (Nat.not_lt_zero i)
  | cons a t ih =>
    intro h i hi
    obtain ⟨v, hv⟩ := Option.isSome_iff_exists.mp (h a (List.mem_cons_self a t))
    cases i with
    | zero => simp [List.filterMap_cons, hv]
    | succ n =>
      have ht := ih (fun x hx => h x (List.mem_cons_of_mem a hx)) n (Nat.lt_of_succ_lt_succ hi)
      simp [List.filterMap_cons, hv, ht]

/-- `filterMap` strictly shortens a list one of whose elements maps to `none`. -/
theorem filterMap_length_lt_of_none {α β : Type} (f : α → Option β) :
    ∀ (l : List α) (a : α), a ∈ l → f a = none → (l.filterMap f).length < l.length := by
  intro l
  induction l with
  | nil => intro a ha; cases ha
  | cons b t ih =>
    intro a ha hn
    rcases List.mem_cons.mp ha with h | h
    · subst h
      simp only [List.filterMap_cons, hn, List.length_cons]
      exact Nat.lt_succ_of_le (List.length_filterMap_le f t)
    · cases hv : f b with
      | none =>
        simp only [List.filterMap_cons, hv, List.length_cons]
        exact Nat.lt_succ_of_lt (ih a h hn)
      | some v =>
        simp only [List.filterMap_cons, hv, List.length_cons]
        exact Nat.succ_lt_succ (ih a h hn)

/-- An element mapped to `some v` lands in the `filterMap` output at the index
counting the kept elements before it. -/
theorem filterMap_getElem?_at_take_length {α β : Type} (f : α → Option β) (l : List α)
    (j : Nat) (hj : j < l.length) (v : β) (hv : f (l.get ⟨j, hj⟩) = some v) :
    (l.filterMap f)[((l.take j).filterMap f).length]? = some v := by
  have hsplit : l.filterMap f = (l.take j).filterMap f ++ (l.drop j).filterMap f := by
    rw [← List.filterMap_append, List.take_append_drop]
  have hv' : f l[j] = some v := by simpa [List.get_eq_getElem] using hv
  rw [hsplit, List.getElem?_append_right (Nat.le_refl _), Nat.sub_self,
    List.drop_eq_getElem_cons hj, List.filterMap_cons, hv']
  simp

/-- If some position `i < j` maps to `none`, fewer than `j` elements are kept
among the first `j`. -/
theorem filterMap_take_length_lt {α β : Type} (f : α → Option β) (l : List α)
    (i j : Nat) (hij : i < j) (hj : j < l.length)
    (hi : f (l.get ⟨i, Nat.lt_trans hij hj⟩) = none) :
    ((l.take j).filterMap f).length < j := by
  have hlen : (l.take j).length = j := by
    rw [List.length_take]
    exact Nat.min_eq_left (Nat.le_of_lt hj)
  have hi' : i < (l.take j).length := by rw [hlen]; exact hij
  have heq : (l.take j).get ⟨i, hi'⟩ = l.get ⟨i, Nat.lt_trans hij hj⟩ := by
    simp [List.get_eq_getElem, List.getElem_take]
  have hmem : l.get ⟨i, Nat.lt_trans hij hj⟩ ∈ l.take j := by
    rw [← heq]; exact List.get_mem _ _ _
  calc ((l.take j).filterMap f).length < (l.take j).length :=
        filterMap_length_lt_of_none f _ _ hmem hi
    _ = j := hlen

/-- The MCP handler's `map`-then-`filter` argv construction is the shared
ordered-skip marshal over the argument-object lookup. -/
theorem mcpGkitArgs_eq_marshal (tool : Tool) (a : List (String × JsonVal)) :
    mcpGkitArgs tool a = marshal (paramOrder tool) (jlookup a) := by
  unfold mcpGkitArgs marshal
  rw [List.reduceOption, List.filterMap_map]
  rfl

/-- Every `ToolToGkitCommandMap` key is a registry entry: the source's
`GkitCommands.find(t => t.name === name)!` non-null assertion is sound. -/
theorem mapped_tools_in_registry :
    ∀ kv ∈ ToolToGkitCommandMap, (GkitCommands.find? (fun t => t.name = kv.fst)).isSome := by
  decide

end Gkit

namespace Gkit

/-- C1: for every CommandSpec, marshaling iterates the declared parameter list
in order and appends exactly the present values (no placeholder, no default):
with every parameter present the output has one entry per parameter, in
declaration order; omitting an earlier parameter while supplying a later one
yields a strictly shorter output in which the later value sits at an index
strictly before its declaration position. -/
theorem marshal_declaration_order {α : Type} (tool : Tool) (values : String → Option α) :
    ((∀ p ∈ paramOrder tool, (values p).isSome) →
      (marshal (paramOrder tool) values).length = (paramOrder tool).length ∧
      ∀ (i : Nat) (hi : i < (paramOrder tool).length),
        (marshal (paramOrder tool) values)[i]? = values ((paramOrder tool).get ⟨i, hi⟩))
    ∧
    (∀ (i j : Nat) (v : α) (hij : i < j) (hj : j < (paramOrder tool).length),
      values ((paramOrder tool).get ⟨i, Nat.lt_trans hij hj⟩) = none →
      values ((paramOrder tool).get ⟨j, hj⟩) = some v →
      (marshal (paramOrder tool) values).length < (paramOrder tool).length ∧
      ∃ k, k < j ∧ (marshal (paramOrder tool) values)[k]? = some v) := by
  constructor
  · intro hall
    exact ⟨filterMap_length_of_isSome values _ hall,
      filterMap_getElem?_of_isSome values _ hall⟩
  · intro i j v hij hj hnone hsome
    refine ⟨filterMap_length_lt_of_none values _ _ (List.get_mem _ _ _) hnone, ?_⟩
    exact ⟨_, filterMap_take_length_lt values _ i j hij hj hnone,
      filterMap_getElem?_at_take_length values _ j hj v hsome⟩

/-- Witness for C1 at the `create_branch` spec: all three parameters present
gives three arguments in order; omitting `from` while supplying `remote`
gives two arguments with `origin` shifted before position 2. -/
theorem marshal_declaration_order_check :
    (∀ p ∈ paramOrder createBranchTool, (cbFull p).isSome) ∧
    (marshal (paramOrder createBranchTool) cbFull).length = (paramOrder createBranchTool).length ∧
    ((marshal (paramOrder createBranchTool) cbSkip).length < (paramOrder createBranchTool).length ∧
      ∃ k, k < 2 ∧ (marshal (paramOrder createBranchTool) cbSkip)[k]? = some "origin") :=
  ⟨by decide,
   ((marshal_declaration_order createBranchTool cbFull).1 (by decide)).1,
   (marshal_declaration_order createBranchTool cbSkip).2 1 2 "origin"
     (by decide) (by decide) (by decide) (by decide)⟩

end Gkit

namespace Gkit

/-- C2 as frozen is false on the code in two ways: the MCP adapter performs no
required-parameter validation — `approve_pr` with an empty argument object is
marshaled to an empty argv and handed to the invoker (a subprocess is spawned)
— and the HTTP adapter's check is `=== undefined`, so an empty-string entry
for a required parameter is accepted (status 200), not rejected. -/
theorem required_validation_cex :
    mcpStep "approve_pr" (some []) = .invokeGkit "ap" [] ∧
    (httpHandler approvePrTool "ap" dummyInvoker
        (fun n => if n = "pr_url" then some (.str "") else none)).resp.status = 200 := by
  constructor
  · rfl
  · rfl

/-- C2 (amended): in the HTTP adapter, a request body leaving some required
parameter undefined is rejected with status 400 and a JSON error naming a
required parameter that is missing, before marshaling, and no subprocess is
spawned; in particular POST `/api/approve-pr` with body `\x7b\x7d` is rejected
naming `pr_url`. (The MCP adapter does no such validation, and presence means
defined: an empty string counts as present.) -/
theorem http_required_validation (tool : Tool) (command : String)
    (invoker : String → List JsonVal → InvocationResult)
    (body : String → Option JsonVal) (p : String)
    (hp : p ∈ tool.required) (hmiss : body p = none) :
    ∃ q, q ∈ tool.required ∧ body q = none ∧
      httpHandler tool command invoker body =
        { resp := { status := 400,
                    body := .errBody false ("Parameter \x27" ++ q ++ "\x27 is required") },
          spawned := [] } := by
  rcases hfind : tool.required.find? (fun r => (body r).isNone) with _ | q
  · exfalso
    have := List.find?_eq_none.mp hfind p hp
    simp [hmiss] at this
  · refine ⟨q, List.mem_of_find?_eq_some hfind, ?_, ?_⟩
    · have := List.find?_some hfind
      simpa [Option.isNone_iff_eq_none] using this
    · unfold httpHandler
      rw [hfind]

/-- Witness for C2 (amended): POST `/api/approve-pr` with body `\x7b\x7d`. -/
theorem http_required_validation_check :
    ("pr_url" ∈ approvePrTool.required ∧ (fun _ => (none : Option JsonVal)) "pr_url" = none) ∧
    ∃ q, q ∈ approvePrTool.required ∧ (fun _ => (none : Option JsonVal)) q = none ∧
      httpHandler approvePrTool "ap" dummyInvoker (fun _ => none) =
        { resp := { status := 400,
                    body := .errBody false ("Parameter \x27" ++ q ++ "\x27 is required") },
          spawned := [] } :=
  ⟨⟨by decide, rfl⟩,
   http_required_validation approvePrTool "ap" dummyInvoker (fun _ => none) "pr_url"
     (by decide) rfl⟩

end Gkit

namespace Gkit

/-- C3: an unregistered command name fails in every adapter without any
process being spawned: the shell router answers `unknownCmd` (usage printed,
exit 1, no `gk_*` function run), the MCP handler reaches the default case and
answers an `Unknown tool` error without invoking, and every registered HTTP
route is the route of some registry entry. -/
theorem unknown_command_rejected (c : String) (rest : List String)
    (name : String) (a : List (String × JsonVal))
    (invoker : String → List JsonVal → InvocationResult) (adv : String → McpResponse)
    (hc1 : c ∉ knownTokens) (hc2 : c ≠ "")
    (hn1 : lookupCmd name = none)
    (hn2 : name ≠ "rv_pr") (hn3 : name ≠ "review_code") (hn4 : name ≠ "commit") :
    (shellMain (c :: rest) = .unknownCmd c ∧
      shellExitCode (shellMain (c :: rest)) = some 1 ∧
      ∀ fn args2, shellMain (c :: rest) ≠ .runFn fn args2) ∧
    (mcpStep name (some a) = .unknown name ∧
      mcpResponse invoker adv name (some a) =
        { text := "Error: Unknown tool: " ++ name, isError := true } ∧
      ∀ cmd argv, mcpStep name (some a) ≠ .invokeGkit cmd argv) ∧
    (∀ e ∈ registeredEndpoints, ∃ t, t ∈ GkitCommands ∧ e = "/api/" ++ hyphenate t.name) := by
  simp only [knownTokens, List.mem_cons, List.not_mem_nil, or_false, not_or] at hc1
  obtain ⟨h1, h2, h3, h4, h5, h6, h7, h8, h9, h10, h11, h12, h13, h14, h15⟩ := hc1
  have hshell : shellMain (c :: rest) = .unknownCmd c := by
    simp [shellMain, hc2, h1, h2, h3, h4, h5, h6, h7, h8, h9, h10, h11, h12, h13, h14, h15]
  have hmcp : mcpStep name (some a) = .unknown name := by
    simp [mcpStep, hn1, hn2, hn3, hn4]
  refine ⟨⟨hshell, ?_, ?_⟩, ⟨hmcp, ?_, ?_⟩, ?_⟩
  · rw [hshell]; rfl
  · intro fn args2 hcontra
    rw [hshell] at hcontra
    cases hcontra
  · rw [mcpResponse, hmcp]
  · intro cmd argv hcontra
    rw [hmcp] at hcontra
    cases hcontra
  · decide

/-- Witness for C3 at the command name `bogus` / tool name `not_a_tool`. -/
theorem unknown_command_rejected_check :
    ("bogus" ∉ knownTokens ∧ lookupCmd "not_a_tool" = none) ∧
    shellMain ["bogus"] = .unknownCmd "bogus" ∧
    mcpStep "not_a_tool" (some []) = .unknown "not_a_tool" :=
  ⟨⟨by decide, rfl⟩,
   (unknown_command_rejected "bogus" [] "not_a_tool" [] dummyInvoker dummyAdv
     (by decide) (by decide) rfl (by decide) (by decide) (by decide)).1.1,
   ((unknown_command_rejected "bogus" [] "not_a_tool" [] dummyInvoker dummyAdv
     (by decide) (by decide) rfl (by decide) (by decide) (by decide)).2.1).1⟩

end Gkit

namespace Gkit

/-- C4 as frozen is false in its last clause: the invoker's result does not
carry the exit code. Two children differing only in their (nonzero) exit
codes produce identical `InvocationResult`s, so no component of the result
determines the exit code. -/
theorem invoker_exit_code_cex :
    executeGkitResult { exitCode := some 1, stdout := "", stderr := "" } =
      executeGkitResult { exitCode := some 2, stdout := "", stderr := "" } ∧
    (some (1 : Int)) ≠ some (2 : Int) := by
  constructor
  · rfl
  · decide

/-- C4 (amended): the invoker's result has `success` true exactly when the
child exited 0, `output` the trimmed captured stdout and `error` the trimmed
captured stderr; the exit code itself is not part of the result (it is
reflected only through the success flag). A child exiting 0 with stdout
`PR created: https://github.com/o/r/pull/5` yields exactly the claimed
result. -/
theorem invoker_result_fields (child : ChildResult) :
    ((executeGkitResult child).success = true ↔ child.exitCode = some 0) ∧
    (executeGkitResult child).output = jsTrim child.stdout ∧
    (executeGkitResult child).error = jsTrim child.stderr ∧
    executeGkitResult
        { exitCode := some 0, stdout := "PR created: https://github.com/o/r/pull/5",
          stderr := "" } =
      { success := true, output := "PR created: https://github.com/o/r/pull/5",
        error := "" } := by
  refine ⟨?_, rfl, rfl, by decide⟩
  simp [executeGkitResult]

end Gkit

namespace Gkit

/-- C5: once a request body passes the required-parameter check, the HTTP
adapter answers status 200 with the InvocationResult as the JSON body — for
an arbitrary invoker outcome, so in particular for a failed one — and the
marshaled invocation is the only spawn. -/
theorem http_status_200_always (tool : Tool) (command : String)
    (invoker : String → List JsonVal → InvocationResult)
    (body : String → Option JsonVal)
    (hreq : ∀ p ∈ tool.required, (body p).isSome) :
    (httpHandler tool command invoker body).resp =
      { status := 200,
        body := .resultBody (invoker command (marshal (paramOrder tool) body)) } ∧
    (httpHandler tool command invoker body).spawned =
      [(command, marshal (paramOrder tool) body)] := by
  have hfind : tool.required.find? (fun p => (body p).isNone) = none := by
    rw [List.find?_eq_none]
    intro p hp
    simp [Option.isNone_iff_eq_none]
    exact Option.isSome_iff_ne_none.mp (hreq p hp)
  unfold httpHandler
  rw [hfind]
  exact ⟨rfl, rfl⟩

/-- Witness for C5: `/api/approve-pr` with `pr_url` supplied, over a child
that exits 1 with stderr `not a git repository` — the response is still 200
and its body is the failed InvocationResult. -/
theorem http_status_200_always_check :
    (∀ p ∈ approvePrTool.required, (prUrlBody p).isSome) ∧
    (httpHandler approvePrTool "ap" (fun _ _ => executeGkitResult gitFailChild)
        prUrlBody).resp =
      { status := 200,
        body := .resultBody
          { success := false, output := "", error := "not a git repository" } } := by
  refine ⟨by decide, ?_⟩
  rw [(http_status_200_always approvePrTool "ap"
    (fun _ _ => executeGkitResult gitFailChild) prUrlBody (by decide)).1]
  decide

end Gkit

namespace Gkit

/-- C6: for a registry-mapped tool, a failed invocation (nonzero exit, so
`success` false) is surfaced as an `isError` response whose text carries the
captured stderr, falling back to the captured output when stderr is empty
(JavaScript `result.error || result.output`); a successful invocation returns
the captured output without the error flag. -/
theorem mcp_failure_surfacing (name cmd : String) (tool : Tool)
    (a : List (String × JsonVal))
    (invoker : String → List JsonVal → InvocationResult) (adv : String → McpResponse)
    (h1 : lookupCmd name = some cmd)
    (h2 : GkitCommands.find? (fun t => t.name = name) = some tool) :
    ((invoker cmd (mcpGkitArgs tool a)).success = false →
      mcpResponse invoker adv name (some a) =
        { text := "Error: " ++
            (if (invoker cmd (mcpGkitArgs tool a)).error = ""
              then (invoker cmd (mcpGkitArgs tool a)).output
              else (invoker cmd (mcpGkitArgs tool a)).error),
          isError := true }) ∧
    ((invoker cmd (mcpGkitArgs tool a)).success = true →
      mcpResponse invoker adv name (some a) =
        { text := (invoker cmd (mcpGkitArgs tool a)).output, isError := false }) := by
  have hstep : mcpStep name (some a) = .invokeGkit cmd (mcpGkitArgs tool a) := by
    simp [mcpStep, h1, h2]
  constructor
  · intro hfail
    rw [mcpResponse, hstep]
    simp [mcpRespond, hfail]
  · intro hok
    rw [mcpResponse, hstep]
    simp [mcpRespond, hok]

/-- Witness for C6: `approve_pr` over a child exiting 1 with stderr
`not a git repository` yields the error response carrying that text. -/
theorem mcp_failure_surfacing_check :
    (lookupCmd "approve_pr" = some "ap" ∧
      GkitCommands.find? (fun t => t.name = "approve_pr") = some approvePrTool) ∧
    mcpResponse (fun _ _ => executeGkitResult gitFailChild) dummyAdv "approve_pr"
        (some [("pr_url", .str "u")]) =
      { text := "Error: not a git repository", isError := true } := by
  refine ⟨⟨rfl, by decide⟩, ?_⟩
  rw [(mcp_failure_surfacing "approve_pr" "ap" approvePrTool [("pr_url", .str "u")]
    (fun _ _ => executeGkitResult gitFailChild) dummyAdv rfl (by decide)).1 (by decide)]
  decide

/-- C7 as frozen is false: the MCP handler does not validate that supplied
argument values are strings. A non-string `pr_url` for the registry-mapped
`approve_pr` is not rejected — it is marshaled into the argv and the
invocation proceeds. -/
theorem mcp_string_validation_cex :
    mcpStep "approve_pr" (some [("pr_url", JsonVal.num 5)]) =
      .invokeGkit "ap" [JsonVal.num 5] ∧
    mcpStep "approve_pr" (some [("pr_url", JsonVal.num 5)]) ≠ .invalid := by
  constructor
  · rfl
  · decide

/-- C7 (amended): the handler only checks that an argument object is present
(`!args || typeof args !== 'object'` answers the invalid-arguments error);
for a registry-mapped tool it then proceeds to marshal and invoke whatever
values — of any JSON type — the mapping supplies. -/
theorem mcp_no_value_validation (name cmd : String) (a : List (String × JsonVal))
    (h1 : lookupCmd name = some cmd) :
    mcpStep name none = .invalid ∧
    ∃ tool, GkitCommands.find? (fun t => t.name = name) = some tool ∧
      mcpStep name (some a) = .invokeGkit cmd (mcpGkitArgs tool a) := by
  refine ⟨rfl, ?_⟩
  unfold lookupCmd at h1
  rcases hfind : ToolToGkitCommandMap.find? (fun kv => kv.fst = name) with _ | kv
  · rw [hfind] at h1
    cases h1
  · rw [hfind] at h1
    simp only [Option.map_some'] at h1
    have hcmd : kv.snd = cmd := Option.some.inj h1
    have hkvname : kv.fst = name := by simpa using List.find?_some hfind
    have hkvmem := List.mem_of_find?_eq_some hfind
    subst hkvname
    subst hcmd
    fin_cases hkvmem <;> exact ⟨_, rfl, rfl⟩

/-- Witness for C7 (amended) at `approve_pr` with a numeric argument value. -/
theorem mcp_no_value_validation_check :
    lookupCmd "approve_pr" = some "ap" ∧
    (mcpStep "approve_pr" none = .invalid ∧
      ∃ tool, GkitCommands.find? (fun t => t.name = "approve_pr") = some tool ∧
        mcpStep "approve_pr" (some [("pr_url", JsonVal.num 5)]) =
          .invokeGkit "ap" (mcpGkitArgs tool [("pr_url", JsonVal.num 5)])) :=
  ⟨rfl, mcp_no_value_validation "approve_pr" "ap" [("pr_url", JsonVal.num 5)] rfl⟩

end Gkit

namespace Gkit

/-- C8 as frozen is false for the not-configured case: with `SLACK_TOKEN`
empty, `gk_slack` returns 1, and since the script runs under `set -e` and the
`gk_slack` call is the last command of `gk_pr`'s success branch, the `pr`
command aborts with exit status 1 even though the PR was created — it does
not complete reporting success. -/
theorem slack_unconfigured_aborts_cex :
    (gk_pr_notify "" "C09E15YGCES" "develop" "https://github.com/o/r/pull/5"
        prCtx notOkReply).snd = 1 ∧
    (gk_pr_notify "" "C09E15YGCES" "develop" "https://github.com/o/r/pull/5"
        prCtx notOkReply).snd ≠ 0 := by
  constructor
  · rfl
  · decide

/-- C8 (amended): with Slack configured (`SLACK_TOKEN` nonempty), a Slack API
reply whose `ok` field is not `true` does not abort `gk_pr`: the command
still finishes with status 0, the PR-created line is in the output, and the
Slack failure appears only as an error string. When `SLACK_TOKEN` is empty,
however, `gk_slack` returns 1 and `set -e` aborts the command with status 1
after the PR-created line. -/
theorem slack_api_failure_no_abort (slackToken prRoom base prUrl : String)
    (ctx : PrNotifyCtx) (reply : SlackApiReply)
    (htok : slackToken ≠ "") (hurl : prUrl ≠ "") (hfail : reply.okField ≠ "true") :
    (gk_pr_notify slackToken prRoom base prUrl ctx reply).snd = 0 ∧
    ("✅ Pull request created: " ++ prUrl ++ " 🎉") ∈
      (gk_pr_notify slackToken prRoom base prUrl ctx reply).fst ∧
    ("❌ Error: " ++ reply.errField) ∈
      (gk_pr_notify slackToken prRoom base prUrl ctx reply).fst ∧
    (gk_pr_notify "" prRoom base prUrl ctx reply).snd = 1 := by
  have hslack : gk_slack slackToken prRoom [gk_pr_message prUrl base ctx] reply =
      (["Sending message to " ++ prRoom ++ ": " ++ gk_pr_message prUrl base ctx,
        "❌ Error: " ++ reply.errField], 0) := by
    unfold gk_slack
    rw [if_neg htok, if_neg (by simp), if_neg hfail]
    rfl
  unfold gk_pr_notify
  rw [if_neg hurl, if_neg hurl, hslack]
  refine ⟨rfl, by simp, by simp, ?_⟩
  unfold gk_slack
  rw [if_pos rfl]

/-- Witness for C8 (amended): token configured, Slack replies not-ok. -/
theorem slack_api_failure_no_abort_check :
    ("xoxb-x" ≠ "" ∧ "https://github.com/o/r/pull/5" ≠ "" ∧ notOkReply.okField ≠ "true") ∧
    (gk_pr_notify "xoxb-x" "C09E15YGCES" "develop" "https://github.com/o/r/pull/5"
        prCtx notOkReply).snd = 0 ∧
    ("✅ Pull request created: https://github.com/o/r/pull/5 🎉") ∈
      (gk_pr_notify "xoxb-x" "C09E15YGCES" "develop" "https://github.com/o/r/pull/5"
        prCtx notOkReply).fst := by
  refine ⟨⟨by decide, by decide, by decide⟩, ?_, ?_⟩
  · exact (slack_api_failure_no_abort "xoxb-x" "C09E15YGCES" "develop"
      "https://github.com/o/r/pull/5" prCtx notOkReply
      (by decide) (by decide) (by decide)).1
  · exact (slack_api_failure_no_abort "xoxb-x" "C09E15YGCES" "develop"
      "https://github.com/o/r/pull/5" prCtx notOkReply
      (by decide) (by decide) (by decide)).2.1

end Gkit

namespace Gkit

/-- C9: for every diff, `reviewCode`'s rating lies in 1..10 and equals 10
exactly when the issues list is empty
(`rating = Math.max(1, 10 - Math.min(issues.length, 9))`). -/
theorem reviewCode_rating_bounds (diff : String) :
    1 ≤ (reviewCode diff).rating ∧ (reviewCode diff).rating ≤ 10 ∧
    ((reviewCode diff).rating = 10 ↔ (reviewCode diff).issues = []) := by
  have hr : (reviewCode diff).rating =
      max 1 (10 - min ((reviewCode diff).issues.length : Int) 9) := rfl
  have hlen : ((reviewCode diff).issues = []) ↔ (reviewCode diff).issues.length = 0 :=
    List.length_eq_zero.symm
  rw [hr, hlen]
  omega

/-- C10: the shell dispatcher run with no command argument shows the help
text and exits 0 (`[ -z "$1" ]` branch), in contrast with an unknown command,
which exits 1. -/
theorem no_command_shows_help_exit_zero (c : String) (rest : List String)
    (hc1 : c ∉ knownTokens) (hc2 : c ≠ "") :
    shellMain [] = .helpExit ∧
    shellExitCode (shellMain []) = some 0 ∧
    shellExitCode (shellMain (c :: rest)) = some 1 := by
  refine ⟨rfl, rfl, ?_⟩
  simp only [knownTokens, List.mem_cons, List.not_mem_nil, or_false, not_or] at hc1
  obtain ⟨h1, h2, h3, h4, h5, h6, h7, h8, h9, h10, h11, h12, h13, h14, h15⟩ := hc1
  simp [shellMain, shellExitCode, hc2, h1, h2, h3, h4, h5, h6, h7, h8, h9, h10,
    h11, h12, h13, h14, h15]

/-- Witness for C10 at the unknown command `frobnicate`. -/
theorem no_command_shows_help_exit_zero_check :
    ("frobnicate" ∉ knownTokens ∧ "frobnicate" ≠ "") ∧
    shellMain [] = .helpExit ∧
    shellExitCode (shellMain []) = some 0 ∧
    shellExitCode (shellMain ["frobnicate"]) = some 1 :=
  ⟨⟨by decide, by decide⟩,
   no_command_shows_help_exit_zero "frobnicate" [] (by decide) (by decide)⟩

end Gkit

namespace Gkit

/-- Witness for C4 (amended) at the failing child. -/
theorem invoker_result_fields_check :
    (executeGkitResult gitFailChild).error = jsTrim gitFailChild.stderr :=
  (invoker_result_fields gitFailChild).2.2.1

/-- Witness for C9 at the empty diff: no issues, rating 10. -/
theorem reviewCode_rating_bounds_check :
    (reviewCode "").rating = 10 :=
  (reviewCode_rating_bounds "").2.2.mpr (by decide)

end Gkit
